import Mathlib

/- Verification of the Stock-Database repository: implied-volatility surface
pipeline (QuoteFilter, ImpliedVolatilitySolver, SurfaceInterpolator,
SurfaceValidator, SurfaceBuilder), the frontend statistics panel of
src/src/frontend/app.js, the SQL volatility query of src/Queries.sql, and
calculate_moving_average. The analysis module iv_surface.py itself is not
present under src/ (only the claudedocs analyses reference it), so the
pipeline components are modelled from the spec as indicated on each
definition. -/

set_option maxRecDepth 4000

namespace StockDB

/-- Option type: a two-variant tagged value, as required by the spec
(section 9: call vs put dispatch is a tagged value, not polymorphism). -/
inductive OptionType
  | call
  | put
  deriving DecidableEq, Repr

/-- Modelled from the spec: an OptionQuote record (section 3) with strike K,
time-to-expiry T in years, observed market price, and option type. The
shared context (spot S, rate r, yield q) is passed separately. Prices and
times are modelled as rationals so the data-flow claims are decidable. -/
structure OptionQuote where
  strike : ℚ
  T : ℚ
  price : ℚ
  ty : OptionType
  deriving DecidableEq, Repr

/-- Modelled from the spec: PRICE_FLOOR, default 0.01 (section 4.1 rule 1). -/
def PRICE_FLOOR : ℚ := 1 / 100

/-- Modelled from the spec: TIME_FLOOR, default 0.01 year (section 4.1 rule 2). -/
def TIME_FLOOR : ℚ := 1 / 100

/-- Modelled from the spec: the QuoteFilter retention test, rules applied in
order (section 4.1): drop if market price is below PRICE_FLOOR; drop if T is
below TIME_FLOOR; moneyness screen with moneyness = S / K: for calls drop if
moneyness exceeds 1.10, for puts drop if moneyness is below 0.90. -/
def keepQuote (S : ℚ) (q : OptionQuote) : Bool :=
  if q.price < PRICE_FLOOR then false
  else if q.T < TIME_FLOOR then false
  else
    match q.ty with
    | OptionType.call => !(S / q.strike > 11 / 10)
    | OptionType.put => !(S / q.strike < 9 / 10)

/-- Modelled from the spec: QuoteFilter (section 4.1), input a raw quote list
plus spot S, output the retained quote list. -/
def quoteFilter (S : ℚ) (qs : List OptionQuote) : List OptionQuote :=
  qs.filter (keepQuote S)

/-- Modelled from the spec: SIGMA_MIN = 0.01, the lower volatility bound. -/
def SIGMA_MIN : ℚ := 1 / 100

/-- Modelled from the spec: SIGMA_MAX = 5.0, the upper volatility bound. -/
def SIGMA_MAX : ℚ := 5

/-- Modelled from the spec: element-wise clip to an interval, the semantics
of np.clip referenced by the claudedocs: clip x lo hi = min (max x lo) hi. -/
def clip (x lo hi : ℚ) : ℚ := min (max x lo) hi

/-- The two interpolation strategies supported by the SurfaceInterpolator
(spec section 4.3). -/
inductive InterpMethod
  | linear
  | cubic
  deriving DecidableEq, Repr

/-- Modelled from the spec: SurfaceValidator (section 4.4): the grid is
clipped element-wise to [SIGMA_MIN, SIGMA_MAX], unconditionally. -/
def validateGrid (g : List (List ℚ)) : List (List ℚ) :=
  g.map (fun row => row.map (fun x => clip x SIGMA_MIN SIGMA_MAX))

/-- Modelled from the spec: the grid exposed to the caller for a chosen
interpolation method. rawInterp abstracts the raw (unclipped) grid each
method produces; the Validator runs after either method as mandatory
post-processing before any surface leaves the system (sections 4.3, 4.4). -/
def returnedSigmaGrid (rawInterp : InterpMethod → List (List ℚ))
    (m : InterpMethod) : List (List ℚ) :=
  validateGrid (rawInterp m)

/-- Modelled from the spec: linear (barycentric) interpolation at one grid
point inside the convex hull of the samples (section 4.3): the triangulation
supplies barycentric weights over the sample sigma values and the output is
the weighted sum. -/
def linearInterpValue (ws sigmas : List ℚ) : ℚ :=
  (List.zipWith (· * ·) ws sigmas).sum

/-- Head-and-fold minimum of a sigma sample list (none on an empty list). -/
def listMin : List ℚ → Option ℚ
  | [] => none
  | a :: t => some (t.foldl min a)

/-- Head-and-fold maximum of a sigma sample list (none on an empty list). -/
def listMax : List ℚ → Option ℚ
  | [] => none
  | a :: t => some (t.foldl max a)

/-- Squared euclidean distance in the (T, K) plane, used by the
nearest-neighbor fallback. -/
def dist2 (p q : ℚ × ℚ) : ℚ := (p.1 - q.1) ^ 2 + (p.2 - q.2) ^ 2

/-- One comparison step of the nearest-neighbor scan: keep whichever of the
current best point and the candidate is closer to the target coordinate. -/
def nearestStep (x : ℚ × ℚ) (best : Option ((ℚ × ℚ) × ℚ))
    (p : (ℚ × ℚ) × ℚ) : Option ((ℚ × ℚ) × ℚ) :=
  match best with
  | none => some p
  | some b => if dist2 p.1 x < dist2 b.1 x then some p else some b

/-- Modelled from the spec: nearest-neighbor selection from the solved point
set, each point carrying its (T, K) coordinate and sigma value. -/
def nearestPoint (pts : List ((ℚ × ℚ) × ℚ)) (x : ℚ × ℚ) :
    Option ((ℚ × ℚ) × ℚ) :=
  pts.foldl (nearestStep x) none

/-- Sigma value of the nearest solved point (0 only in the vacuous empty
case, which the pipeline excludes via the minimum point count). -/
def nearestValue (pts : List ((ℚ × ℚ) × ℚ)) (x : ℚ × ℚ) : ℚ :=
  match nearestPoint pts x with
  | some b => b.2
  | none => 0

/-- Modelled from the spec: NaN handling (section 4.3): every grid cell left
undefined by the interpolation method (none, outside the convex hull) is
filled by nearest-neighbor assignment from the solved point set; defined
cells are kept. A cell is a (T, K) coordinate with an optional sigma. -/
def fillNanGrid (pts : List ((ℚ × ℚ) × ℚ))
    (grid : List ((ℚ × ℚ) × Option ℚ)) : List ((ℚ × ℚ) × Option ℚ) :=
  grid.map
    (fun c =>
      match c.2 with
      | some v => (c.1, some v)
      | none => (c.1, some (nearestValue pts c.1)))

/-- Modelled from the spec: the minimum usable point count below which a
surface fails as InsufficientData (section 4.4, e.g. 4). -/
def MIN_POINTS : ℕ := 4

/-- Outcome of one option-type surface build (spec sections 4.5, 7):
success carries the points used and the per-quote failure count;
insufficientData is the typed fatal outcome for that option type. -/
inductive BuildOutcome
  | success (pointsUsed : ℕ) (failedCount : ℕ)
  | insufficientData
  deriving DecidableEq, Repr

/-- Modelled from the spec: SurfaceBuilder for one option type (sections 4.4
and 4.5): filter the quotes, dispatch one solve per filtered quote (solve,
abstract here, returns none on a per-quote failure), drop and count the
failures, keeping each surviving quote with its sigma, and fail with
InsufficientData when the surviving point set is degenerate: fewer than
MIN_POINTS points, or spanning only a single T value, or spanning only a
single K value. -/
def buildSurfaceOutcome (solve : OptionQuote → Option ℚ) (S : ℚ)
    (qs : List OptionQuote) : BuildOutcome :=
  let fq := quoteFilter S qs
  let pts := fq.filterMap (fun q => (solve q).map (fun σ => (q, σ)))
  if pts.length < MIN_POINTS ∨
      (pts.map (fun p => p.1.T)).dedup.length = 1 ∨
      (pts.map (fun p => p.1.strike)).dedup.length = 1 then
    BuildOutcome.insufficientData
  else BuildOutcome.success pts.length (fq.length - pts.length)

/-- Modelled from the spec: calls and puts are built independently through
the same pipeline (section 4.5); neither outcome depends on the other. -/
def buildAll (solve : OptionQuote → Option ℚ) (S : ℚ)
    (callQs putQs : List OptionQuote) : BuildOutcome × BuildOutcome :=
  (buildSurfaceOutcome solve S callQs, buildSurfaceOutcome solve S putQs)

/-- Round to four decimal places, ties to even, the behaviour of round(x, 4)
used by calculate_moving_average. -/
def round4 (x : ℚ) : ℚ :=
  let y := x * 10000
  let f := ⌊y⌋
  let n : ℤ :=
    if y - f < 1 / 2 then f
    else if 1 / 2 < y - f then f + 1
    else if f % 2 = 0 then f else f + 1
  (n : ℚ) / 10000

/-- Embedding of calculate_moving_average from src/unnamed/part_001 lines
898-909: iterate i over range(len(prices)), appending None while i is below
window - 1 and otherwise the mean of the slice prices[i-window+1 : i+1]
rounded to four decimals. The slice is drop (i + 1 - window) then take
window. -/
def calculate_moving_average (prices : List ℚ) (window : ℕ) :
    List (Option ℚ) :=
  (List.range prices.length).foldl
    (fun ma i =>
      ma ++
        [if i < window - 1 then none
         else some (round4 (((prices.drop (i + 1 - window)).take window).sum
             / window))])
    []

/-- Standard normal probability density, the phi of the spec (section 4.2). -/
noncomputable def normPdf (x : ℝ) : ℝ :=
  Real.exp (-x ^ 2 / 2) / Real.sqrt (2 * Real.pi)

/-- Standard normal cumulative distribution, the Phi of the spec
(section 4.2), as the integral of the density over (-infinity, x]. -/
noncomputable def normCdf (x : ℝ) : ℝ :=
  ∫ t in Set.Iic x, normPdf t

/-- Modelled from the spec: d1 of Black-Scholes-Merton (section 4.2). -/
noncomputable def bsmD1 (S K T r q sigma : ℝ) : ℝ :=
  (Real.log (S / K) + (r - q + sigma ^ 2 / 2) * T) / (sigma * Real.sqrt T)

/-- Modelled from the spec: d2 = d1 - sigma sqrt T (section 4.2). -/
noncomputable def bsmD2 (S K T r q sigma : ℝ) : ℝ :=
  bsmD1 S K T r q sigma - sigma * Real.sqrt T

/-- Modelled from the spec: the Black-Scholes-Merton price with continuous
dividend yield (section 4.2): call price S exp(-qT) Phi(d1) - K exp(-rT)
Phi(d2); put price K exp(-rT) Phi(-d2) - S exp(-qT) Phi(-d1). -/
noncomputable def bsmPrice (ty : OptionType) (S K T r q sigma : ℝ) : ℝ :=
  match ty with
  | OptionType.call =>
      S * Real.exp (-q * T) * normCdf (bsmD1 S K T r q sigma) -
        K * Real.exp (-r * T) * normCdf (bsmD2 S K T r q sigma)
  | OptionType.put =>
      K * Real.exp (-r * T) * normCdf (-bsmD2 S K T r q sigma) -
        S * Real.exp (-q * T) * normCdf (-bsmD1 S K T r q sigma)

/-- Modelled from the spec: vega = S exp(-qT) phi(d1) sqrt T, identical for
calls and puts, the Newton-Raphson derivative (section 4.2). -/
noncomputable def bsmVega (S K T r q sigma : ℝ) : ℝ :=
  S * Real.exp (-q * T) * normPdf (bsmD1 S K T r q sigma) * Real.sqrt T

/-- Modelled from the spec: the solver bounds and tolerances (section 4.2):
SIGMA_MIN = 0.01 as a real. -/
noncomputable def sigmaMinR : ℝ := 1 / 100

/-- Modelled from the spec: SIGMA_MAX = 5.0 as a real. -/
noncomputable def sigmaMaxR : ℝ := 5

/-- Modelled from the spec: the initial guess sigma0 = 0.20 (section 4.2). -/
noncomputable def SIGMA_INIT : ℝ := 1 / 5

/-- Modelled from the spec: PRICE_TOLERANCE, default 0.001 (section 4.2). -/
noncomputable def PRICE_TOLERANCE : ℝ := 1 / 1000

/-- Modelled from the spec: the numerical floor below which vega counts as
degenerate (section 4.2, DegenerateVega). -/
noncomputable def VEGA_FLOOR : ℝ := 1 / 10 ^ 8

/-- Real-valued clip, the np.clip of the update rule. -/
noncomputable def clipR (x lo hi : ℝ) : ℝ := min (max x lo) hi

/-- Modelled from the spec: one Newton-Raphson step of the solver
(section 4.2). If the price residual is already within PRICE_TOLERANCE the
iterate is left unchanged (convergence reached); if vega is below the
numerical floor no further progress is made (DegenerateVega); otherwise
sigma is updated and immediately clipped to [SIGMA_MIN, SIGMA_MAX]. -/
noncomputable def nrStep (ty : OptionType) (S K T r q mkt : ℝ) (sigma : ℝ) :
    ℝ :=
  if |bsmPrice ty S K T r q sigma - mkt| < PRICE_TOLERANCE then sigma
  else if |bsmVega S K T r q sigma| < VEGA_FLOOR then sigma
  else
    clipR (sigma - (bsmPrice ty S K T r q sigma - mkt) / bsmVega S K T r q sigma)
      sigmaMinR sigmaMaxR

/-- Modelled from the spec: the Newton-Raphson iterate sequence starting at
SIGMA_INIT = 0.20 (section 4.2). nrIterate n is the iterate after n loop
iterations. -/
noncomputable def nrIterate (ty : OptionType) (S K T r q mkt : ℝ) : ℕ → ℝ
  | 0 => SIGMA_INIT
  | n + 1 => nrStep ty S K T r q mkt (nrIterate ty S K T r q mkt n)

/-- Consecutive simple daily returns (p[i] - p[i-1]) / p[i-1], the returns
array built by displayStatistics in src/src/frontend/app.js lines 1070-1073
(identical in src/unnamed/part_000). -/
noncomputable def simpleReturns : List ℝ → List ℝ
  | a :: b :: rest => (b - a) / a :: simpleReturns (b :: rest)
  | _ => []

/-- Consecutive log returns LN(close / LAG(close)), the daily_returns CTE of
src/Queries.sql. -/
noncomputable def logReturns : List ℝ → List ℝ
  | a :: b :: rest => Real.log (b / a) :: logReturns (b :: rest)
  | _ => []

/-- Arithmetic mean of a list of reals (sum / length). -/
noncomputable def meanR (l : List ℝ) : ℝ := l.sum / l.length

/-- Population variance: sum of squared deviations divided by the count, as
in displayStatistics (app.js line 1075). -/
noncomputable def popVar (l : List ℝ) : ℝ :=
  (l.map (fun r => (r - meanR l) ^ 2)).sum / l.length

/-- Sample variance: sum of squared deviations from the mean divided by
count - 1, as in the volatility_calc CTE of src/Queries.sql. -/
noncomputable def sampleVar (l : List ℝ) : ℝ :=
  (l.map (fun r => (r - meanR l) ^ 2)).sum / ((l.length : ℝ) - 1)

/-- Embedding of the volatility computed by displayStatistics
(src/src/frontend/app.js lines 1069-1076, same code in
src/unnamed/part_000 lines 657-665): the standard deviation of simple daily
returns with population variance, annualized as sqrt(variance * 252) * 100.
The input list is the non-null close series the function filters first. -/
noncomputable def displayStatisticsVolatility (prices : List ℝ) : ℝ :=
  Real.sqrt (popVar (simpleReturns prices) * 252) * 100

/-- Embedding of the annualized_volatility_pct column of src/Queries.sql:
the query windows SONY_prices to the rows from the 252nd most recent date on
(none is returned when fewer than 252 rows exist, as the OFFSET 251 subquery
is then empty and the comparison with NULL drops every row), takes LAG-based
log returns over that window (251 of them), and reports the sample standard
deviation times sqrt(252) times 100. -/
noncomputable def annualized_volatility_pct (closes : List ℝ) : Option ℝ :=
  if closes.length < 252 then none
  else
    some (Real.sqrt (sampleVar (logReturns (closes.drop (closes.length - 252))))
      * Real.sqrt 252 * 100)

/-! Helper lemmas shared by the claim theorems. -/

lemma clip_bounds (x : ℚ) :
    SIGMA_MIN ≤ clip x SIGMA_MIN SIGMA_MAX ∧ clip x SIGMA_MIN SIGMA_MAX ≤ SIGMA_MAX := by
  unfold clip
  constructor
  · exact le_min (le_max_right _ _) (by norm_num [SIGMA_MIN, SIGMA_MAX])
  · exact min_le_right _ _

lemma clipR_bounds (x : ℝ) :
    sigmaMinR ≤ clipR x sigmaMinR sigmaMaxR ∧ clipR x sigmaMinR sigmaMaxR ≤ sigmaMaxR := by
  unfold clipR
  constructor
  · exact le_min (le_max_right _ _) (by norm_num [sigmaMinR, sigmaMaxR])
  · exact min_le_right _ _

/-- Claim C1: for every request and both interpolation methods, every value
of the sigma grid returned to the caller lies in [0.01, 5.0]: the Validator
unconditionally clips the interpolated grid element-wise to
[SIGMA_MIN, SIGMA_MAX] before any surface is exposed. -/
theorem claim_C1 (rawInterp : InterpMethod → List (List ℚ)) (m : InterpMethod)
    (row : List ℚ) (hrow : row ∈ returnedSigmaGrid rawInterp m)
    (x : ℚ) (hx : x ∈ row) : SIGMA_MIN ≤ x ∧ x ≤ SIGMA_MAX := by
  unfold returnedSigmaGrid validateGrid at hrow
  obtain ⟨row0, -, rfl⟩ := List.mem_map.mp hrow
  obtain ⟨y, -, rfl⟩ := List.mem_map.mp hx
  exact clip_bounds y

/-- Witness for claim C1 at a raw cubic grid holding the artifact value -8. -/
theorem claim_C1_witness :
    SIGMA_MIN ≤ clip (-8) SIGMA_MIN SIGMA_MAX ∧
      clip (-8) SIGMA_MIN SIGMA_MAX ≤ SIGMA_MAX :=
  claim_C1 (fun _ => [[-8]]) InterpMethod.cubic
    [clip (-8) SIGMA_MIN SIGMA_MAX] (by simp [returnedSigmaGrid, validateGrid])
    (clip (-8) SIGMA_MIN SIGMA_MAX) (by simp)

/-- Claim C2: at every Newton-Raphson iteration the iterate is within
[SIGMA_MIN, SIGMA_MAX] (the update is clipped immediately), so sigma is
never negative, indeed strictly positive, at any iteration of the loop. -/
theorem claim_C2 (ty : OptionType) (S K T r q mkt : ℝ) (n : ℕ) :
    0 < nrIterate ty S K T r q mkt n ∧
      sigmaMinR ≤ nrIterate ty S K T r q mkt n ∧
      nrIterate ty S K T r q mkt n ≤ sigmaMaxR := by
  induction n with
  | zero =>
      refine ⟨?_, ?_, ?_⟩ <;> norm_num [nrIterate, SIGMA_INIT, sigmaMinR, sigmaMaxR]
  | succ n ih =>
      have step : sigmaMinR ≤ nrStep ty S K T r q mkt (nrIterate ty S K T r q mkt n) ∧
          nrStep ty S K T r q mkt (nrIterate ty S K T r q mkt n) ≤ sigmaMaxR := by
        unfold nrStep
        split
        · exact ⟨ih.2.1, ih.2.2⟩
        · split
          · exact ⟨ih.2.1, ih.2.2⟩
          · exact clipR_bounds _
      have hrw : nrIterate ty S K T r q mkt (n + 1) =
          nrStep ty S K T r q mkt (nrIterate ty S K T r q mkt n) := rfl
      rw [hrw]
      exact ⟨lt_of_lt_of_le (by norm_num [sigmaMinR]) step.1, step.1, step.2⟩

/-- Claim C3: every call quote retained by the QuoteFilter has moneyness
S / K at most 1.10 and every retained put quote has moneyness at least
0.90; deep in-the-money quotes are dropped before the solver. -/
theorem claim_C3 (S : ℚ) (qs : List OptionQuote) (q : OptionQuote)
    (hq : q ∈ quoteFilter S qs) :
    (q.ty = OptionType.call → S / q.strike ≤ 11 / 10) ∧
      (q.ty = OptionType.put → 9 / 10 ≤ S / q.strike) := by
  have hk : keepQuote S q = true := (List.mem_filter.mp hq).2
  unfold keepQuote at hk
  split at hk
  · exact absurd hk (by simp)
  · split at hk
    · exact absurd hk (by simp)
    · constructor
      · intro hty
        rw [hty] at hk
        simp only [Bool.not_eq_true'] at hk
        exact not_lt.mp (by exact_mod_cast of_decide_eq_false hk)
      · intro hty
        rw [hty] at hk
        simp only [Bool.not_eq_true'] at hk
        exact not_lt.mp (by exact_mod_cast of_decide_eq_false hk)

/-- Witness for claim C3: with spot 100, a retained call at strike 95 and a
retained put at strike 105 satisfy the moneyness bounds. -/
theorem claim_C3_witness :
    ((OptionQuote.mk 95 (1 : ℚ) 5 OptionType.call).ty = OptionType.call →
      (100 : ℚ) / (OptionQuote.mk 95 (1 : ℚ) 5 OptionType.call).strike ≤ 11 / 10) ∧
      ((OptionQuote.mk 95 (1 : ℚ) 5 OptionType.call).ty = OptionType.put →
        9 / 10 ≤ (100 : ℚ) / (OptionQuote.mk 95 (1 : ℚ) 5 OptionType.call).strike) :=
  claim_C3 100 [OptionQuote.mk 95 (1 : ℚ) 5 OptionType.call]
    (OptionQuote.mk 95 (1 : ℚ) 5 OptionType.call)
    (by norm_num [quoteFilter, keepQuote, PRICE_FLOOR, TIME_FLOOR, List.filter_cons])

/-- Claim C4: a quote whose price is below PRICE_FLOOR or whose
time-to-expiry is below TIME_FLOOR is dropped by the QuoteFilter and never
reaches the solver. -/
theorem claim_C4 (S : ℚ) (qs : List OptionQuote) (q : OptionQuote)
    (h : q.price < PRICE_FLOOR ∨ q.T < TIME_FLOOR) :
    q ∉ quoteFilter S qs := by
  intro hq
  have hk : keepQuote S q = true := (List.mem_filter.mp hq).2
  unfold keepQuote at hk
  rcases h with h | h
  · rw [if_pos h] at hk
    exact absurd hk (by simp)
  · by_cases hp : q.price < PRICE_FLOOR
    · rw [if_pos hp] at hk
      exact absurd hk (by simp)
    · rw [if_neg hp, if_pos h] at hk
      exact absurd hk (by simp)

/-- Witness for claim C4: the scenario-C quote with T = 0.001 and
price = 0.001 is dropped. -/
theorem claim_C4_witness :
    ((OptionQuote.mk 100 (1 / 1000 : ℚ) (1 / 1000) OptionType.call).price < PRICE_FLOOR ∨
      (OptionQuote.mk 100 (1 / 1000 : ℚ) (1 / 1000) OptionType.call).T < TIME_FLOOR) ∧
      (OptionQuote.mk 100 (1 / 1000 : ℚ) (1 / 1000) OptionType.call) ∉
        quoteFilter 100 [OptionQuote.mk 100 (1 / 1000 : ℚ) (1 / 1000) OptionType.call] :=
  ⟨Or.inl (by norm_num [PRICE_FLOOR]),
    claim_C4 100 [OptionQuote.mk 100 (1 / 1000 : ℚ) (1 / 1000) OptionType.call]
      (OptionQuote.mk 100 (1 / 1000 : ℚ) (1 / 1000) OptionType.call)
      (Or.inl (by norm_num [PRICE_FLOOR]))⟩

/-- Claim C8: per-quote solver failures are dropped and counted without
aborting the surface build, and InsufficientData is fatal only for the
affected option type: when only 3 put points survive, the puts surface
fails with InsufficientData while the calls surface, whose surviving point
set is sufficient (at least MIN_POINTS points, spanning more than one T
value and more than one K value), still succeeds, reporting its used-point
and failure counts. -/
theorem claim_C8 (solve : OptionQuote → Option ℚ) (S : ℚ)
    (callQs putQs : List OptionQuote)
    (hput : ((quoteFilter S putQs).filterMap
        (fun q => (solve q).map (fun σ => (q, σ)))).length = 3)
    (hcall : MIN_POINTS ≤ ((quoteFilter S callQs).filterMap
        (fun q => (solve q).map (fun σ => (q, σ)))).length)
    (hT : (((quoteFilter S callQs).filterMap
        (fun q => (solve q).map (fun σ => (q, σ)))).map
          (fun p => p.1.T)).dedup.length ≠ 1)
    (hK : (((quoteFilter S callQs).filterMap
        (fun q => (solve q).map (fun σ => (q, σ)))).map
          (fun p => p.1.strike)).dedup.length ≠ 1) :
    (buildAll solve S callQs putQs).2 = BuildOutcome.insufficientData ∧
      (buildAll solve S callQs putQs).1 =
        BuildOutcome.success
          ((quoteFilter S callQs).filterMap
            (fun q => (solve q).map (fun σ => (q, σ)))).length
          ((quoteFilter S callQs).length -
            ((quoteFilter S callQs).filterMap
              (fun q => (solve q).map (fun σ => (q, σ)))).length) := by
  unfold buildAll buildSurfaceOutcome
  constructor
  · have hp : ((quoteFilter S putQs).filterMap
        (fun q => (solve q).map (fun σ => (q, σ)))).length < MIN_POINTS := by
      rw [hput]
      norm_num [MIN_POINTS]
    rw [if_pos (Or.inl hp)]
  · rw [if_neg (not_or.mpr ⟨not_lt.mpr hcall, not_or.mpr ⟨hT, hK⟩⟩)]

/-- Witness for claim C8: spot 100, five surviving call quotes of which the
strike-120 one fails in the solver (four points, one counted failure,
spanning the two expiries 1/2 and 1 and four strikes), and four put quotes
of which the strike-120 one is dropped by the moneyness screen so only
three put points survive. -/
theorem claim_C8_witness :
    (((quoteFilter 100 [OptionQuote.mk 100 (1 / 2 : ℚ) 5 OptionType.put,
        OptionQuote.mk 102 (1 / 2 : ℚ) 5 OptionType.put,
        OptionQuote.mk 104 (1 / 2 : ℚ) 5 OptionType.put,
        OptionQuote.mk 120 (1 / 2 : ℚ) 5 OptionType.put]).filterMap
        (fun q => ((if q.strike = 120 then none else some ((1 : ℚ) / 5)) :
            Option ℚ).map (fun σ => (q, σ)))).length = 3) ∧
      MIN_POINTS ≤
        ((quoteFilter 100 [OptionQuote.mk 100 (1 / 2 : ℚ) 5 OptionType.call,
          OptionQuote.mk 110 (1 / 2 : ℚ) 5 OptionType.call,
          OptionQuote.mk 120 (1 / 2 : ℚ) 5 OptionType.call,
          OptionQuote.mk 130 (1 : ℚ) 5 OptionType.call,
          OptionQuote.mk 140 (1 : ℚ) 5 OptionType.call]).filterMap
          (fun q => ((if q.strike = 120 then none else some ((1 : ℚ) / 5)) :
              Option ℚ).map (fun σ => (q, σ)))).length ∧
      (((quoteFilter 100 [OptionQuote.mk 100 (1 / 2 : ℚ) 5 OptionType.call,
          OptionQuote.mk 110 (1 / 2 : ℚ) 5 OptionType.call,
          OptionQuote.mk 120 (1 / 2 : ℚ) 5 OptionType.call,
          OptionQuote.mk 130 (1 : ℚ) 5 OptionType.call,
          OptionQuote.mk 140 (1 : ℚ) 5 OptionType.call]).filterMap
          (fun q => ((if q.strike = 120 then none else some ((1 : ℚ) / 5)) :
              Option ℚ).map (fun σ => (q, σ)))).map
          (fun p => p.1.T)).dedup.length ≠ 1 ∧
      (((quoteFilter 100 [OptionQuote.mk 100 (1 / 2 : ℚ) 5 OptionType.call,
          OptionQuote.mk 110 (1 / 2 : ℚ) 5 OptionType.call,
          OptionQuote.mk 120 (1 / 2 : ℚ) 5 OptionType.call,
          OptionQuote.mk 130 (1 : ℚ) 5 OptionType.call,
          OptionQuote.mk 140 (1 : ℚ) 5 OptionType.call]).filterMap
          (fun q => ((if q.strike = 120 then none else some ((1 : ℚ) / 5)) :
              Option ℚ).map (fun σ => (q, σ)))).map
          (fun p => p.1.strike)).dedup.length ≠ 1 ∧
      (buildAll (fun q => if q.strike = 120 then none else some ((1 : ℚ) / 5)) 100
          [OptionQuote.mk 100 (1 / 2 : ℚ) 5 OptionType.call,
            OptionQuote.mk 110 (1 / 2 : ℚ) 5 OptionType.call,
            OptionQuote.mk 120 (1 / 2 : ℚ) 5 OptionType.call,
            OptionQuote.mk 130 (1 : ℚ) 5 OptionType.call,
            OptionQuote.mk 140 (1 : ℚ) 5 OptionType.call]
          [OptionQuote.mk 100 (1 / 2 : ℚ) 5 OptionType.put,
            OptionQuote.mk 102 (1 / 2 : ℚ) 5 OptionType.put,
            OptionQuote.mk 104 (1 / 2 : ℚ) 5 OptionType.put,
            OptionQuote.mk 120 (1 / 2 : ℚ) 5 OptionType.put]).2 =
        BuildOutcome.insufficientData := by
  have h1 : ((quoteFilter 100 [OptionQuote.mk 100 (1 / 2 : ℚ) 5 OptionType.put,
      OptionQuote.mk 102 (1 / 2 : ℚ) 5 OptionType.put,
      OptionQuote.mk 104 (1 / 2 : ℚ) 5 OptionType.put,
      OptionQuote.mk 120 (1 / 2 : ℚ) 5 OptionType.put]).filterMap
      (fun q => ((if q.strike = 120 then none else some ((1 : ℚ) / 5)) :
          Option ℚ).map (fun σ => (q, σ)))).length = 3 := by
    norm_num [quoteFilter, keepQuote, PRICE_FLOOR, TIME_FLOOR, List.filter_cons,
      List.filterMap_cons]
  have hcallsEq : (quoteFilter 100
      [OptionQuote.mk 100 (1 / 2 : ℚ) 5 OptionType.call,
        OptionQuote.mk 110 (1 / 2 : ℚ) 5 OptionType.call,
        OptionQuote.mk 120 (1 / 2 : ℚ) 5 OptionType.call,
        OptionQuote.mk 130 (1 : ℚ) 5 OptionType.call,
        OptionQuote.mk 140 (1 : ℚ) 5 OptionType.call]).filterMap
      (fun q => ((if q.strike = 120 then none else some ((1 : ℚ) / 5)) :
          Option ℚ).map (fun σ => (q, σ))) =
      [(OptionQuote.mk 100 (1 / 2 : ℚ) 5 OptionType.call, (1 : ℚ) / 5),
        (OptionQuote.mk 110 (1 / 2 : ℚ) 5 OptionType.call, (1 : ℚ) / 5),
        (OptionQuote.mk 130 (1 : ℚ) 5 OptionType.call, (1 : ℚ) / 5),
        (OptionQuote.mk 140 (1 : ℚ) 5 OptionType.call, (1 : ℚ) / 5)] := by
    norm_num [quoteFilter, keepQuote, PRICE_FLOOR, TIME_FLOOR, List.filter_cons,
      List.filterMap_cons]
  have h2 : MIN_POINTS ≤
      ((quoteFilter 100 [OptionQuote.mk 100 (1 / 2 : ℚ) 5 OptionType.call,
        OptionQuote.mk 110 (1 / 2 : ℚ) 5 OptionType.call,
        OptionQuote.mk 120 (1 / 2 : ℚ) 5 OptionType.call,
        OptionQuote.mk 130 (1 : ℚ) 5 OptionType.call,
        OptionQuote.mk 140 (1 : ℚ) 5 OptionType.call]).filterMap
        (fun q => ((if q.strike = 120 then none else some ((1 : ℚ) / 5)) :
            Option ℚ).map (fun σ => (q, σ)))).length := by
    rw [hcallsEq]
    norm_num [MIN_POINTS]
  have h3 : (((quoteFilter 100
      [OptionQuote.mk 100 (1 / 2 : ℚ) 5 OptionType.call,
        OptionQuote.mk 110 (1 / 2 : ℚ) 5 OptionType.call,
        OptionQuote.mk 120 (1 / 2 : ℚ) 5 OptionType.call,
        OptionQuote.mk 130 (1 : ℚ) 5 OptionType.call,
        OptionQuote.mk 140 (1 : ℚ) 5 OptionType.call]).filterMap
      (fun q => ((if q.strike = 120 then none else some ((1 : ℚ) / 5)) :
          Option ℚ).map (fun σ => (q, σ)))).map
      (fun p => p.1.T)).dedup.length ≠ 1 := by
    rw [hcallsEq]
    norm_num [List.dedup_cons_of_mem, List.dedup_cons_of_not_mem]
  have h4 : (((quoteFilter 100
      [OptionQuote.mk 100 (1 / 2 : ℚ) 5 OptionType.call,
        OptionQuote.mk 110 (1 / 2 : ℚ) 5 OptionType.call,
        OptionQuote.mk 120 (1 / 2 : ℚ) 5 OptionType.call,
        OptionQuote.mk 130 (1 : ℚ) 5 OptionType.call,
        OptionQuote.mk 140 (1 : ℚ) 5 OptionType.call]).filterMap
      (fun q => ((if q.strike = 120 then none else some ((1 : ℚ) / 5)) :
          Option ℚ).map (fun σ => (q, σ)))).map
      (fun p => p.1.strike)).dedup.length ≠ 1 := by
    rw [hcallsEq]
    norm_num [List.dedup_cons_of_mem, List.dedup_cons_of_not_mem]
  refine ⟨h1, h2, h3, h4, ?_⟩
  exact (claim_C8 (fun q => if q.strike = 120 then none else some ((1 : ℚ) / 5)) 100
    [OptionQuote.mk 100 (1 / 2 : ℚ) 5 OptionType.call,
      OptionQuote.mk 110 (1 / 2 : ℚ) 5 OptionType.call,
      OptionQuote.mk 120 (1 / 2 : ℚ) 5 OptionType.call,
      OptionQuote.mk 130 (1 : ℚ) 5 OptionType.call,
      OptionQuote.mk 140 (1 : ℚ) 5 OptionType.call]
    [OptionQuote.mk 100 (1 / 2 : ℚ) 5 OptionType.put,
      OptionQuote.mk 102 (1 / 2 : ℚ) 5 OptionType.put,
      OptionQuote.mk 104 (1 / 2 : ℚ) 5 OptionType.put,
      OptionQuote.mk 120 (1 / 2 : ℚ) 5 OptionType.put]
    h1 h2 h3 h4).1

lemma foldl_min_le (t : List ℚ) (a : ℚ) :
    t.foldl min a ≤ a ∧ ∀ x ∈ t, t.foldl min a ≤ x := by
  induction t generalizing a with
  | nil => exact ⟨le_refl a, by simp⟩
  | cons b t ih =>
      have h := ih (min a b)
      refine ⟨le_trans h.1 (min_le_left _ _), ?_⟩
      intro x hx
      rcases List.mem_cons.mp hx with rfl | hx
      · exact le_trans h.1 (min_le_right _ _)
      · exact h.2 x hx

lemma le_foldl_max (t : List ℚ) (a : ℚ) :
    a ≤ t.foldl max a ∧ ∀ x ∈ t, x ≤ t.foldl max a := by
  induction t generalizing a with
  | nil => exact ⟨le_refl a, by simp⟩
  | cons b t ih =>
      have h := ih (max a b)
      refine ⟨le_trans (le_max_left _ _) h.1, ?_⟩
      intro x hx
      rcases List.mem_cons.mp hx with rfl | hx
      · exact le_trans (le_max_right _ _) h.1
      · exact h.2 x hx

lemma zipWith_sum_le (M : ℚ) :
    ∀ (ws ss : List ℚ), ws.length = ss.length → (∀ w ∈ ws, 0 ≤ w) →
      (∀ s ∈ ss, s ≤ M) → (List.zipWith (· * ·) ws ss).sum ≤ M * ws.sum := by
  intro ws
  induction ws with
  | nil => intro ss _ _ _; simp
  | cons w ws ih =>
      intro ss hlen hw hs
      cases ss with
      | nil => simp at hlen
      | cons s ss =>
          simp only [List.zipWith_cons_cons, List.sum_cons]
          have h1 : w * s ≤ w * M :=
            mul_le_mul_of_nonneg_left (hs s (by simp)) (hw w (by simp))
          have h2 := ih ss (by simpa using hlen)
            (fun x hx => hw x (by simp [hx])) (fun x hx => hs x (by simp [hx]))
          have hr : M * (w + ws.sum) = w * M + M * ws.sum := by ring
          rw [hr]
          exact add_le_add h1 h2

lemma le_zipWith_sum (m : ℚ) :
    ∀ (ws ss : List ℚ), ws.length = ss.length → (∀ w ∈ ws, 0 ≤ w) →
      (∀ s ∈ ss, m ≤ s) → m * ws.sum ≤ (List.zipWith (· * ·) ws ss).sum := by
  intro ws
  induction ws with
  | nil => intro ss _ _ _; simp
  | cons w ws ih =>
      intro ss hlen hw hs
      cases ss with
      | nil => simp at hlen
      | cons s ss =>
          simp only [List.zipWith_cons_cons, List.sum_cons]
          have h1 : w * m ≤ w * s :=
            mul_le_mul_of_nonneg_left (hs s (by simp)) (hw w (by simp))
          have h2 := ih ss (by simpa using hlen)
            (fun x hx => hw x (by simp [hx])) (fun x hx => hs x (by simp [hx]))
          have hr : m * (w + ws.sum) = w * m + m * ws.sum := by ring
          rw [hr]
          exact add_le_add h1 h2

/-- Claim C6: at any grid point inside the convex hull of the samples,
linear interpolation is a convex combination (nonnegative barycentric
weights summing to one) of the sample sigmas, hence its value lies within
[min input sigma, max input sigma] and cannot overshoot. -/
theorem claim_C6 (ws ss : List ℚ) (m M : ℚ) (hlen : ws.length = ss.length)
    (hw : ∀ w ∈ ws, 0 ≤ w) (hsum : ws.sum = 1)
    (hm : listMin ss = some m) (hM : listMax ss = some M) :
    m ≤ linearInterpValue ws ss ∧ linearInterpValue ws ss ≤ M := by
  cases ss with
  | nil => exact absurd hm (by simp [listMin])
  | cons a t =>
      have hm' : m = t.foldl min a := by
        have := hm
        simp only [listMin, Option.some.injEq] at this
        exact this.symm
      have hM' : M = t.foldl max a := by
        have := hM
        simp only [listMax, Option.some.injEq] at this
        exact this.symm
      have hlow : ∀ s ∈ a :: t, m ≤ s := by
        intro s hs
        rcases List.mem_cons.mp hs with rfl | hs
        · exact hm' ▸ (foldl_min_le t s).1
        · exact hm' ▸ (foldl_min_le t a).2 s hs
      have hhigh : ∀ s ∈ a :: t, s ≤ M := by
        intro s hs
        rcases List.mem_cons.mp hs with rfl | hs
        · exact hM' ▸ (le_foldl_max t s).1
        · exact hM' ▸ (le_foldl_max t a).2 s hs
      constructor
      · have h := le_zipWith_sum m ws (a :: t) hlen hw hlow
        rwa [hsum, mul_one] at h
      · have h := zipWith_sum_le M ws (a :: t) hlen hw hhigh
        rwa [hsum, mul_one] at h

/-- Witness for claim C6: weights one-half and one-half over samples 1 and
3 give an interpolated value between the minimum 1 and the maximum 3. -/
theorem claim_C6_witness :
    (1 : ℚ) ≤ linearInterpValue [1 / 2, 1 / 2] [1, 3] ∧
      linearInterpValue [1 / 2, 1 / 2] [1, 3] ≤ 3 :=
  claim_C6 [1 / 2, 1 / 2] [1, 3] 1 3 (by simp)
    (by intro w hw; rcases List.mem_cons.mp hw with rfl | hw
        · norm_num
        · simp at hw; rw [hw]; norm_num)
    (by norm_num)
    (by norm_num [listMin, min_def])
    (by norm_num [listMax, max_def])

lemma nearestStep_cases (x : ℚ × ℚ) (b : Option ((ℚ × ℚ) × ℚ))
    (p : (ℚ × ℚ) × ℚ) :
    nearestStep x b p = some p ∨ nearestStep x b p = b := by
  cases b with
  | none => exact Or.inl rfl
  | some c =>
      have hstep : nearestStep x (some c) p =
          if dist2 p.1 x < dist2 c.1 x then some p else some c := rfl
      rw [hstep]
      by_cases h : dist2 p.1 x < dist2 c.1 x
      · rw [if_pos h]; exact Or.inl rfl
      · rw [if_neg h]; exact Or.inr rfl

lemma foldl_nearestStep_mem (x : ℚ × ℚ) :
    ∀ (pts : List ((ℚ × ℚ) × ℚ)) (b : Option ((ℚ × ℚ) × ℚ))
      (p : (ℚ × ℚ) × ℚ), pts.foldl (nearestStep x) b = some p →
      p ∈ pts ∨ b = some p := by
  intro pts
  induction pts with
  | nil => intro b p h; exact Or.inr (by simpa using h)
  | cons hd t ih =>
      intro b p h
      simp only [List.foldl_cons] at h
      rcases ih _ p h with hmem | hb
      · exact Or.inl (List.mem_cons_of_mem _ hmem)
      · rcases nearestStep_cases x b hd with hc | hc
        · rw [hb] at hc
          have : hd = p := by
            have := hc.symm
            simpa using this
          exact Or.inl (this ▸ List.mem_cons_self _ _)
        · rw [hb] at hc
          exact Or.inr hc.symm

lemma nearestPoint_mem (pts : List ((ℚ × ℚ) × ℚ)) (x : ℚ × ℚ)
    (p : (ℚ × ℚ) × ℚ) (h : nearestPoint pts x = some p) : p ∈ pts := by
  rcases foldl_nearestStep_mem x pts none p h with h1 | h1
  · exact h1
  · exact absurd h1 (by simp)

lemma foldl_nearestStep_isSome (x : ℚ × ℚ) :
    ∀ (pts : List ((ℚ × ℚ) × ℚ)) (c : (ℚ × ℚ) × ℚ),
      ∃ p, pts.foldl (nearestStep x) (some c) = some p := by
  intro pts
  induction pts with
  | nil => exact fun c => ⟨c, rfl⟩
  | cons hd t ih =>
      intro c
      simp only [List.foldl_cons]
      rcases nearestStep_cases x (some c) hd with h | h
      · rw [h]; exact ih hd
      · rw [h]; exact ih c

lemma nearestPoint_isSome (pts : List ((ℚ × ℚ) × ℚ)) (x : ℚ × ℚ)
    (h : pts ≠ []) : ∃ p, nearestPoint pts x = some p := by
  cases pts with
  | nil => exact absurd rfl h
  | cons hd t =>
      unfold nearestPoint
      simp only [List.foldl_cons]
      exact foldl_nearestStep_isSome x t hd

/-- Claim C7: after the NaN-filling pass, every cell of the grid handed to
the Validator holds a definite (finite) value: original interpolated values
are kept, and every undefined cell receives the sigma of some solved point
via nearest-neighbor assignment. -/
theorem claim_C7 (pts : List ((ℚ × ℚ) × ℚ))
    (grid : List ((ℚ × ℚ) × Option ℚ)) (hpts : pts ≠ []) :
    ∀ cell ∈ fillNanGrid pts grid, ∃ v : ℚ, cell.2 = some v ∧
      ((cell.1, some v) ∈ grid ∨ ∃ p ∈ pts, p.2 = v) := by
  intro cell hcell
  unfold fillNanGrid at hcell
  obtain ⟨c, hc, rfl⟩ := List.mem_map.mp hcell
  cases hv : c.2 with
  | some v =>
      refine ⟨v, rfl, Or.inl ?_⟩
      show (c.1, some v) ∈ grid
      have hpair : (c.1, some v) = c := by
        rw [← hv]
      rwa [hpair]
  | none =>
      refine ⟨nearestValue pts c.1, rfl, Or.inr ?_⟩
      obtain ⟨p, hp⟩ := nearestPoint_isSome pts c.1 hpts
      refine ⟨p, nearestPoint_mem pts c.1 p hp, ?_⟩
      unfold nearestValue
      rw [hp]

/-- Witness for claim C7: one solved point at the origin with sigma 2 and a
grid with one undefined and one defined cell. -/
theorem claim_C7_witness :
    (([(((0 : ℚ), (0 : ℚ)), (2 : ℚ))] : List ((ℚ × ℚ) × ℚ)) ≠ []) ∧
      ∀ cell ∈ fillNanGrid [(((0 : ℚ), (0 : ℚ)), (2 : ℚ))]
        [(((1 : ℚ), (1 : ℚ)), (none : Option ℚ)),
          (((0 : ℚ), (1 : ℚ)), some (3 : ℚ))],
        ∃ v : ℚ, cell.2 = some v ∧
          ((cell.1, some v) ∈
            [(((1 : ℚ), (1 : ℚ)), (none : Option ℚ)),
              (((0 : ℚ), (1 : ℚ)), some (3 : ℚ))] ∨
            ∃ p ∈ ([(((0 : ℚ), (0 : ℚ)), (2 : ℚ))] : List ((ℚ × ℚ) × ℚ)),
              p.2 = v) :=
  ⟨by simp,
    claim_C7 [(((0 : ℚ), (0 : ℚ)), (2 : ℚ))]
      [(((1 : ℚ), (1 : ℚ)), (none : Option ℚ)),
        (((0 : ℚ), (1 : ℚ)), some (3 : ℚ))] (by simp)⟩

lemma foldl_push (f : ℕ → Option ℚ) :
    ∀ (l : List ℕ) (acc : List (Option ℚ)),
      l.foldl (fun a i => a ++ [f i]) acc = acc ++ l.map f := by
  intro l
  induction l with
  | nil => intro acc; simp
  | cons x t ih => intro acc; simp [List.foldl_cons, ih]

lemma cma_eq_map (prices : List ℚ) (w : ℕ) :
    calculate_moving_average prices w =
      (List.range prices.length).map
        (fun i => if i < w - 1 then none
          else some (round4 (((prices.drop (i + 1 - w)).take w).sum / w))) := by
  unfold calculate_moving_average
  rw [foldl_push]
  simp

/-- Claim C10: calculate_moving_average returns a list of the same length
as the prices, with entry i equal to None for i below window - 1 and equal
to the mean of the window slice prices[i-window+1 .. i] rounded to four
decimals for every later i. -/
theorem claim_C10 (prices : List ℚ) (w : ℕ) (hw : 1 ≤ w) :
    (calculate_moving_average prices w).length = prices.length ∧
      ∀ i, i < prices.length →
        (i < w - 1 → (calculate_moving_average prices w)[i]? = some none) ∧
        (w - 1 ≤ i →
          (calculate_moving_average prices w)[i]? =
            some (some (round4 (((prices.drop (i + 1 - w)).take w).sum / w)))) := by
  constructor
  · rw [cma_eq_map]; simp
  · intro i hi
    constructor
    · intro hlt
      rw [cma_eq_map, List.getElem?_map, List.getElem?_range hi]
      simp [hlt]
    · intro hge
      rw [cma_eq_map, List.getElem?_map, List.getElem?_range hi]
      simp [Nat.not_lt.mpr hge]

/-- Witness for claim C10 on the price list [1, 2, 3] with window 2. -/
theorem claim_C10_witness :
    (1 ≤ 2) ∧
      ((calculate_moving_average [1, 2, 3] 2).length =
          ([1, 2, 3] : List ℚ).length ∧
        ∀ i, i < ([1, 2, 3] : List ℚ).length →
          (i < 2 - 1 → (calculate_moving_average [1, 2, 3] 2)[i]? = some none) ∧
          (2 - 1 ≤ i →
            (calculate_moving_average [1, 2, 3] 2)[i]? =
              some (some (round4
                (((([1, 2, 3] : List ℚ).drop (i + 1 - 2)).take 2).sum / 2))))) :=
  ⟨by norm_num, claim_C10 [1, 2, 3] 2 (by norm_num)⟩

lemma simpleReturns_cons (u v : ℝ) (t : List ℝ) :
    simpleReturns (u :: v :: t) = (v - u) / u :: simpleReturns (v :: t) := rfl

lemma simpleReturns_single (b : ℝ) : simpleReturns [b] = [] := rfl

lemma logReturns_cons (u v : ℝ) (t : List ℝ) :
    logReturns (u :: v :: t) = Real.log (v / u) :: logReturns (v :: t) := rfl

lemma logReturns_single (b : ℝ) : logReturns [b] = [] := rfl

lemma simpleReturns_pad (a b : ℝ) :
    ∀ n, simpleReturns (List.replicate (n + 1) a ++ [b]) =
      List.replicate n 0 ++ [(b - a) / a] := by
  intro n
  induction n with
  | zero =>
      simp only [List.replicate_succ, List.replicate_zero, List.nil_append,
        List.cons_append, simpleReturns_cons, simpleReturns_single]
  | succ n ih =>
      have h2 : List.replicate (n + 1) a ++ [b] =
          a :: (List.replicate n a ++ [b]) := by
        simp [List.replicate_succ]
      have h1 : List.replicate (n + 1 + 1) a ++ [b] =
          a :: (a :: (List.replicate n a ++ [b])) := by
        simp [List.replicate_succ]
      rw [h1, simpleReturns_cons, ← h2, ih]
      simp [List.replicate_succ, sub_self, zero_div]

lemma logReturns_pad (a b : ℝ) (ha : a ≠ 0) :
    ∀ n, logReturns (List.replicate (n + 1) a ++ [b]) =
      List.replicate n 0 ++ [Real.log (b / a)] := by
  intro n
  induction n with
  | zero =>
      simp only [List.replicate_succ, List.replicate_zero, List.nil_append,
        List.cons_append, logReturns_cons, logReturns_single]
  | succ n ih =>
      have h2 : List.replicate (n + 1) a ++ [b] =
          a :: (List.replicate n a ++ [b]) := by
        simp [List.replicate_succ]
      have h1 : List.replicate (n + 1 + 1) a ++ [b] =
          a :: (a :: (List.replicate n a ++ [b])) := by
        simp [List.replicate_succ]
      rw [h1, logReturns_cons, ← h2, ih]
      simp [List.replicate_succ, div_self ha, Real.log_one]

lemma simpleReturns_const (c : ℝ) :
    ∀ n, simpleReturns (List.replicate (n + 1) c) = List.replicate n 0 := by
  intro n
  induction n with
  | zero => rfl
  | succ n ih =>
      have h1 : List.replicate (n + 1 + 1) c = c :: List.replicate (n + 1) c := by
        simp [List.replicate_succ]
      have h2 : List.replicate (n + 1) c = c :: List.replicate n c := by
        simp [List.replicate_succ]
      rw [h1]
      rw [show c :: List.replicate (n + 1) c =
        c :: c :: List.replicate n c from by rw [h2]]
      rw [simpleReturns_cons, ← h2, ih]
      simp [List.replicate_succ, sub_self, zero_div]

lemma logReturns_const (c : ℝ) (hc : c ≠ 0) :
    ∀ n, logReturns (List.replicate (n + 1) c) = List.replicate n 0 := by
  intro n
  induction n with
  | zero => rfl
  | succ n ih =>
      have h1 : List.replicate (n + 1 + 1) c = c :: List.replicate (n + 1) c := by
        simp [List.replicate_succ]
      have h2 : List.replicate (n + 1) c = c :: List.replicate n c := by
        simp [List.replicate_succ]
      rw [h1]
      rw [show c :: List.replicate (n + 1) c =
        c :: c :: List.replicate n c from by rw [h2]]
      rw [logReturns_cons, ← h2, ih]
      simp [List.replicate_succ, div_self hc, Real.log_one]

lemma meanR_pad (k : ℕ) (x : ℝ) :
    meanR (List.replicate k (0 : ℝ) ++ [x]) = x / ((k : ℝ) + 1) := by
  unfold meanR
  simp [List.sum_append, List.sum_replicate, List.length_append,
    List.length_replicate]

lemma meanR_replicate_zero (k : ℕ) : meanR (List.replicate k (0 : ℝ)) = 0 := by
  unfold meanR
  simp [List.sum_replicate]

lemma sampleVar_replicate_zero (k : ℕ) :
    sampleVar (List.replicate k (0 : ℝ)) = 0 := by
  unfold sampleVar
  simp only [meanR_replicate_zero]
  simp [List.map_replicate, List.sum_replicate]

lemma popVar_replicate_zero (k : ℕ) :
    popVar (List.replicate k (0 : ℝ)) = 0 := by
  unfold popVar
  simp only [meanR_replicate_zero]
  simp [List.map_replicate, List.sum_replicate]

lemma sampleVar_pad (x : ℝ) :
    sampleVar (List.replicate 250 (0 : ℝ) ++ [x]) = x ^ 2 / 251 := by
  unfold sampleVar
  simp only [meanR_pad]
  simp only [List.map_append, List.map_replicate, List.sum_append,
    List.sum_replicate, List.length_append, List.length_replicate,
    List.length_cons, List.length_nil, nsmul_eq_mul]
  push_cast
  field_simp
  ring

lemma popVar_pad (x : ℝ) :
    popVar (List.replicate 250 (0 : ℝ) ++ [x]) = 250 * x ^ 2 / 63001 := by
  unfold popVar
  simp only [meanR_pad]
  simp only [List.map_append, List.map_replicate, List.sum_append,
    List.sum_replicate, List.length_append, List.length_replicate,
    List.length_cons, List.length_nil, nsmul_eq_mul]
  push_cast
  field_simp
  ring

/-- Counterexample for claim C9: on the close series of 251 ones followed by
a single 2 (252 closes, so the SQL window covers the whole series), the SQL
query reports log-2 times sqrt(252/251) times 100 while the frontend panel
reports sqrt(250 times 252)/251 times 100; the two differ, so the frontend
statistic does not equal the SQL statistic. -/
theorem claim_C9_counterexample :
    annualized_volatility_pct (List.replicate 251 (1 : ℝ) ++ [2]) ≠
      some (displayStatisticsVolatility (List.replicate 251 (1 : ℝ) ++ [2])) := by
  intro hEq
  have hL0 : 0 < Real.log 2 := Real.log_pos (by norm_num)
  have hL1 : Real.log 2 < 0.6931471808 := Real.log_two_lt_d9
  have h251 : (251 : ℕ) = 250 + 1 := by norm_num
  have hlog : logReturns (List.replicate 251 (1 : ℝ) ++ [2]) =
      List.replicate 250 0 ++ [Real.log 2] := by
    rw [h251, logReturns_pad 1 2 one_ne_zero 250]
    norm_num
  have hsim : simpleReturns (List.replicate 251 (1 : ℝ) ++ [2]) =
      List.replicate 250 0 ++ [1] := by
    rw [h251, simpleReturns_pad 1 2 250]
    norm_num
  have hlen : (List.replicate 251 (1 : ℝ) ++ [2]).length = 252 := by simp
  have hsql : annualized_volatility_pct (List.replicate 251 (1 : ℝ) ++ [2]) =
      some (Real.sqrt (sampleVar (List.replicate 250 (0 : ℝ) ++ [Real.log 2])) *
        Real.sqrt 252 * 100) := by
    unfold annualized_volatility_pct
    rw [hlen, if_neg (by norm_num)]
    rw [show (252 : ℕ) - 252 = 0 from by norm_num, List.drop_zero, hlog]
  have hfront : displayStatisticsVolatility (List.replicate 251 (1 : ℝ) ++ [2]) =
      Real.sqrt (popVar (List.replicate 250 (0 : ℝ) ++ [1]) * 252) * 100 := by
    unfold displayStatisticsVolatility
    rw [hsim]
  rw [hsql, hfront] at hEq
  have hEq2 := Option.some.inj hEq
  have hLsq : Real.log 2 ^ 2 < 1 / 2 := by nlinarith [hL0, hL1]
  have hkey : sampleVar (List.replicate 250 (0 : ℝ) ++ [Real.log 2]) * 252 <
      popVar (List.replicate 250 (0 : ℝ) ++ [1]) * 252 := by
    rw [sampleVar_pad, popVar_pad]
    nlinarith [hLsq]
  have hsv_nonneg : 0 ≤ sampleVar (List.replicate 250 (0 : ℝ) ++ [Real.log 2]) := by
    rw [sampleVar_pad]
    positivity
  have hlt : Real.sqrt (sampleVar (List.replicate 250 (0 : ℝ) ++ [Real.log 2])) *
      Real.sqrt 252 * 100 <
      Real.sqrt (popVar (List.replicate 250 (0 : ℝ) ++ [1]) * 252) * 100 := by
    rw [← Real.sqrt_mul hsv_nonneg]
    exact mul_lt_mul_of_pos_right
      (Real.sqrt_lt_sqrt (by positivity) hkey) (by norm_num)
  exact absurd hEq2 (ne_of_lt hlt)

/-- Amended claim C9: the frontend statistic (population standard deviation
of simple daily returns over the whole series, annualized) and the SQL
statistic (sample standard deviation of log returns over the most recent
252 closes, annualized; NULL for shorter series) are different statistics
and differ in general; they do agree on every constant positive close
series of at least 252 closes, where both are zero. -/
theorem claim_C9_amended (c : ℝ) (n : ℕ) (hc : 0 < c) (hn : 252 ≤ n) :
    annualized_volatility_pct (List.replicate n c) =
      some (displayStatisticsVolatility (List.replicate n c)) := by
  obtain ⟨m, rfl⟩ : ∃ m, n = m + 1 := ⟨n - 1, by omega⟩
  have hlen : (List.replicate (m + 1) c).length = m + 1 := by simp
  have hdrop : (List.replicate (m + 1) c).drop (m + 1 - 252) =
      List.replicate 252 c := by
    rw [List.drop_replicate]
    congr 1
    omega
  have hlog : logReturns (List.replicate 252 c) = List.replicate 251 0 := by
    rw [show (252 : ℕ) = 251 + 1 from by norm_num]
    exact logReturns_const c (ne_of_gt hc) 251
  have hsim : simpleReturns (List.replicate (m + 1) c) = List.replicate m 0 :=
    simpleReturns_const c m
  unfold annualized_volatility_pct displayStatisticsVolatility
  rw [hlen, if_neg (by omega), hdrop, hlog, hsim,
    sampleVar_replicate_zero, popVar_replicate_zero]
  simp

/-- Witness for the amended claim C9 at the constant series of 252 ones. -/
theorem claim_C9_amended_witness :
    ((0 : ℝ) < 1 ∧ 252 ≤ 252) ∧
      annualized_volatility_pct (List.replicate 252 (1 : ℝ)) =
        some (displayStatisticsVolatility (List.replicate 252 (1 : ℝ))) :=
  ⟨⟨by norm_num, by norm_num⟩, claim_C9_amended 1 252 (by norm_num) (by norm_num)⟩

lemma normPdf_nonneg (x : ℝ) : 0 ≤ normPdf x :=
  div_nonneg (Real.exp_nonneg _) (Real.sqrt_nonneg _)

lemma normPdf_eq (t : ℝ) :
    normPdf t = Real.exp (-(1 / 2) * t ^ 2) / Real.sqrt (2 * Real.pi) := by
  unfold normPdf
  rw [show (-t ^ 2 / 2 : ℝ) = -(1 / 2) * t ^ 2 from by ring]

lemma integrable_normPdf : MeasureTheory.Integrable normPdf := by
  have h : MeasureTheory.Integrable (fun t : ℝ => Real.exp (-(1 / 2) * t ^ 2)) :=
    integrable_exp_neg_mul_sq (by norm_num)
  have h2 := h.div_const (Real.sqrt (2 * Real.pi))
  exact h2.congr (Filter.Eventually.of_forall fun t => (normPdf_eq t).symm)

lemma integral_normPdf : ∫ t : ℝ, normPdf t = 1 := by
  have heq : (fun t : ℝ => normPdf t) =
      fun t : ℝ => Real.exp (-(1 / 2) * t ^ 2) / Real.sqrt (2 * Real.pi) :=
    funext normPdf_eq
  rw [heq, MeasureTheory.integral_div, integral_gaussian,
    show Real.pi / (1 / 2) = 2 * Real.pi from by ring]
  exact div_self (ne_of_gt (by positivity))

lemma normCdf_le_one (x : ℝ) : normCdf x ≤ 1 := by
  rw [← integral_normPdf]
  exact MeasureTheory.setIntegral_le_integral integrable_normPdf
    (Filter.Eventually.of_forall fun t => normPdf_nonneg t)

lemma normCdf_mono {x y : ℝ} (h : x ≤ y) : normCdf x ≤ normCdf y := by
  unfold normCdf
  exact MeasureTheory.setIntegral_mono_set integrable_normPdf.integrableOn
    (Filter.Eventually.of_forall fun t => normPdf_nonneg t)
    (HasSubset.Subset.eventuallyLE (Set.Iic_subset_Iic.mpr h))

lemma hasDerivAt_neg_exp_sq (t : ℝ) :
    HasDerivAt (fun u : ℝ => -Real.exp (-u ^ 2 / 2))
      (t * Real.exp (-t ^ 2 / 2)) t := by
  have ha : HasDerivAt (fun u : ℝ => u ^ 2) (2 * t) t := by
    simpa using hasDerivAt_pow 2 t
  have hb : HasDerivAt (fun u : ℝ => -u ^ 2) (-(2 * t)) t := ha.neg
  have hc : HasDerivAt (fun u : ℝ => -u ^ 2 / 2) (-(2 * t) / 2) t := hb.div_const 2
  have h1 : HasDerivAt (fun u : ℝ => -u ^ 2 / 2) (-t) t := by
    convert hc using 1
    ring
  have h4 := (h1.exp).neg
  convert h4 using 1
  ring

lemma tendsto_neg_exp_sq :
    Filter.Tendsto (fun u : ℝ => -Real.exp (-u ^ 2 / 2)) Filter.atTop
      (nhds 0) := by
  have h1 : Filter.Tendsto (fun u : ℝ => u ^ 2 / 2) Filter.atTop Filter.atTop :=
    (Filter.tendsto_pow_atTop (by norm_num)).atTop_div_const (by norm_num)
  have h2 : Filter.Tendsto (fun u : ℝ => -u ^ 2 / 2) Filter.atTop
      Filter.atBot := by
    have h := Filter.tendsto_neg_atTop_atBot.comp h1
    exact h.congr fun u => by
      show -(u ^ 2 / 2) = -u ^ 2 / 2
      ring
  have h3 := Real.tendsto_exp_atBot.comp h2
  have h4 := h3.neg
  simpa using h4

lemma integrableOn_Ioi_mul_exp (x : ℝ) (hx : 0 < x) :
    MeasureTheory.IntegrableOn (fun t : ℝ => t * Real.exp (-t ^ 2 / 2))
      (Set.Ioi x) :=
  MeasureTheory.integrableOn_Ioi_deriv_of_nonneg'
    (fun t _ => hasDerivAt_neg_exp_sq t)
    (fun t ht => mul_nonneg (le_of_lt (lt_trans hx (Set.mem_Ioi.mp ht)))
      (Real.exp_nonneg _))
    tendsto_neg_exp_sq

lemma integral_Ioi_mul_exp (x : ℝ) (hx : 0 < x) :
    ∫ t in Set.Ioi x, t * Real.exp (-t ^ 2 / 2) = Real.exp (-x ^ 2 / 2) := by
  have h := MeasureTheory.integral_Ioi_of_hasDerivAt_of_nonneg'
    (fun t _ => hasDerivAt_neg_exp_sq t)
    (fun t ht => mul_nonneg (le_of_lt (lt_trans hx (Set.mem_Ioi.mp ht)))
      (Real.exp_nonneg _))
    tendsto_neg_exp_sq
  rw [h]
  ring

lemma one_sub_normCdf (x : ℝ) :
    1 - normCdf x = ∫ t in Set.Ioi x, normPdf t := by
  have h := MeasureTheory.integral_add_compl (measurableSet_Iic (a := x))
    integrable_normPdf
  rw [integral_normPdf, Set.compl_Iic] at h
  unfold normCdf
  linarith

lemma normCdf_tail (x : ℝ) (hx : 1 ≤ x) :
    1 - normCdf x ≤ Real.exp (-x ^ 2 / 2) := by
  rw [one_sub_normCdf]
  have hx0 : 0 < x := lt_of_lt_of_le zero_lt_one hx
  have hsqrt : 1 ≤ Real.sqrt (2 * Real.pi) := by
    rw [show (1 : ℝ) = Real.sqrt 1 from (Real.sqrt_one).symm]
    apply Real.sqrt_le_sqrt
    nlinarith [Real.pi_gt_three]
  have hmono : (∫ t in Set.Ioi x, normPdf t) ≤
      ∫ t in Set.Ioi x, t * Real.exp (-t ^ 2 / 2) := by
    apply MeasureTheory.setIntegral_mono_on
      integrable_normPdf.integrableOn (integrableOn_Ioi_mul_exp x hx0)
      measurableSet_Ioi
    intro t ht
    have ht1 : 1 ≤ t := le_trans hx (le_of_lt (Set.mem_Ioi.mp ht))
    have hp1 : normPdf t ≤ Real.exp (-t ^ 2 / 2) := by
      unfold normPdf
      exact div_le_self (Real.exp_nonneg _) hsqrt
    have hp2 : Real.exp (-t ^ 2 / 2) ≤ t * Real.exp (-t ^ 2 / 2) :=
      le_mul_of_one_le_left (Real.exp_nonneg _) ht1
    linarith
  calc (∫ t in Set.Ioi x, normPdf t)
      ≤ ∫ t in Set.Ioi x, t * Real.exp (-t ^ 2 / 2) := hmono
    _ = Real.exp (-x ^ 2 / 2) := integral_Ioi_mul_exp x hx0

lemma normCdf_diff_le (x0 u v : ℝ) (hu : x0 ≤ u) (hv : x0 ≤ v) :
    |normCdf u - normCdf v| ≤ 1 - normCdf x0 := by
  have h1 := normCdf_mono hu
  have h2 := normCdf_mono hv
  have h3 := normCdf_le_one u
  have h4 := normCdf_le_one v
  rw [abs_sub_le_iff]
  constructor <;> linarith

lemma log_hundred_lb : (83 : ℝ) / 20 < Real.log 100 := by
  have h1 : Real.log 64 < Real.log 100 := Real.log_lt_log (by norm_num) (by norm_num)
  have h2 : Real.log 64 = 6 * Real.log 2 := by
    rw [show (64 : ℝ) = 2 ^ 6 from by norm_num, Real.log_pow]
    norm_num
  have h3 := Real.log_two_gt_d9
  nlinarith

lemma bsmD1_eval (σ : ℝ) :
    bsmD1 100 1 1 0 0 σ = (Real.log 100 + σ ^ 2 / 2) / σ := by
  unfold bsmD1
  rw [Real.sqrt_one]
  norm_num

lemma bsmD2_eval (σ : ℝ) :
    bsmD2 100 1 1 0 0 σ = (Real.log 100 + σ ^ 2 / 2) / σ - σ := by
  unfold bsmD2
  rw [bsmD1_eval, Real.sqrt_one, mul_one]

lemma d_bounds :
    20 ≤ bsmD1 100 1 1 0 0 (1 / 5) ∧ 20 ≤ bsmD2 100 1 1 0 0 (1 / 5) ∧
      20 ≤ bsmD1 100 1 1 0 0 (1 / 20) ∧ 20 ≤ bsmD2 100 1 1 0 0 (1 / 20) := by
  have hl := log_hundred_lb
  refine ⟨?_, ?_, ?_, ?_⟩
  · rw [bsmD1_eval, le_div_iff (by norm_num : (0 : ℝ) < 1 / 5)]
    nlinarith
  · rw [bsmD2_eval, le_sub_iff_add_le, le_div_iff (by norm_num : (0 : ℝ) < 1 / 5)]
    nlinarith
  · rw [bsmD1_eval, le_div_iff (by norm_num : (0 : ℝ) < 1 / 20)]
    nlinarith
  · rw [bsmD2_eval, le_sub_iff_add_le, le_div_iff (by norm_num : (0 : ℝ) < 1 / 20)]
    nlinarith

lemma bsmPrice_eval (σ : ℝ) :
    bsmPrice OptionType.call 100 1 1 0 0 σ =
      100 * normCdf (bsmD1 100 1 1 0 0 σ) - normCdf (bsmD2 100 1 1 0 0 σ) := by
  unfold bsmPrice
  norm_num [Real.exp_zero]

lemma tail_twenty : 1 - normCdf 20 ≤ Real.exp (-(12 : ℝ)) := by
  have h := normCdf_tail 20 (by norm_num)
  have h2 : Real.exp (-(20 : ℝ) ^ 2 / 2) ≤ Real.exp (-(12 : ℝ)) :=
    Real.exp_le_exp.mpr (by norm_num)
  linarith

lemma exp_neg_twelve : Real.exp (-(12 : ℝ)) < 1 / 150000 := by
  rw [Real.exp_neg]
  have h12 : (150000 : ℝ) < Real.exp 12 := by
    have h : (2.7 : ℝ) < Real.exp 1 := by
      have := Real.exp_one_gt_d9
      linarith
    have hpow : (2.7 : ℝ) ^ (12 : ℕ) ≤ Real.exp 1 ^ (12 : ℕ) :=
      pow_le_pow_left (by norm_num) (le_of_lt h) 12
    have hval : (150000 : ℝ) < (2.7 : ℝ) ^ (12 : ℕ) := by norm_num
    have hexp : Real.exp 1 ^ (12 : ℕ) = Real.exp 12 := by
      rw [← Real.exp_nat_mul]
      norm_num
    linarith
  calc (Real.exp 12)⁻¹ < (150000 : ℝ)⁻¹ := inv_lt_inv_of_lt (by norm_num) h12
    _ = 1 / 150000 := by norm_num

lemma price_residual_small :
    |bsmPrice OptionType.call 100 1 1 0 0 (1 / 5) -
      bsmPrice OptionType.call 100 1 1 0 0 (1 / 20)| < PRICE_TOLERANCE := by
  obtain ⟨h1, h2, h3, h4⟩ := d_bounds
  rw [bsmPrice_eval, bsmPrice_eval]
  have hab := normCdf_diff_le 20 _ _ h1 h3
  have hcd := normCdf_diff_le 20 _ _ h2 h4
  have htail := tail_twenty
  have hexp := exp_neg_twelve
  have hsplit : 100 * normCdf (bsmD1 100 1 1 0 0 (1 / 5)) -
      normCdf (bsmD2 100 1 1 0 0 (1 / 5)) -
      (100 * normCdf (bsmD1 100 1 1 0 0 (1 / 20)) -
        normCdf (bsmD2 100 1 1 0 0 (1 / 20))) =
      100 * (normCdf (bsmD1 100 1 1 0 0 (1 / 5)) -
        normCdf (bsmD1 100 1 1 0 0 (1 / 20))) +
      -(normCdf (bsmD2 100 1 1 0 0 (1 / 5)) -
        normCdf (bsmD2 100 1 1 0 0 (1 / 20))) := by ring
  rw [hsplit]
  have htri := abs_add
    (100 * (normCdf (bsmD1 100 1 1 0 0 (1 / 5)) -
      normCdf (bsmD1 100 1 1 0 0 (1 / 20))))
    (-(normCdf (bsmD2 100 1 1 0 0 (1 / 5)) -
      normCdf (bsmD2 100 1 1 0 0 (1 / 20))))
  rw [abs_mul, abs_neg, show |(100 : ℝ)| = 100 from by norm_num] at htri
  unfold PRICE_TOLERANCE
  linarith

lemma nrIterate_stuck (n : ℕ) :
    nrIterate OptionType.call 100 1 1 0 0
      (bsmPrice OptionType.call 100 1 1 0 0 (1 / 20)) n = SIGMA_INIT := by
  induction n with
  | zero => rfl
  | succ n ih =>
      have hstep : nrIterate OptionType.call 100 1 1 0 0
          (bsmPrice OptionType.call 100 1 1 0 0 (1 / 20)) (n + 1) =
          nrStep OptionType.call 100 1 1 0 0
            (bsmPrice OptionType.call 100 1 1 0 0 (1 / 20))
            (nrIterate OptionType.call 100 1 1 0 0
              (bsmPrice OptionType.call 100 1 1 0 0 (1 / 20)) n) := rfl
      rw [hstep, ih]
      unfold nrStep
      have hcond : |bsmPrice OptionType.call 100 1 1 0 0 SIGMA_INIT -
          bsmPrice OptionType.call 100 1 1 0 0 (1 / 20)| < PRICE_TOLERANCE := by
        unfold SIGMA_INIT
        exact price_residual_small
      rw [if_pos hcond]

/-- Counterexample for claim C5: the synthetic deep in-the-money call quote
S = 100, K = 1, T = 1, r = q = 0 with sigma_true = 0.05 (inside [0.05, 3.0])
defeats the round trip: the quote price is insensitive to sigma, the price
residual at the initial guess 0.20 is already below PRICE_TOLERANCE, so the
solver converges immediately to 0.20 and after 50 iterations the error
|sigma - sigma_true| = 0.15 far exceeds the claimed 1e-4 tolerance. -/
theorem claim_C5_counterexample :
    1 / 10000 < |nrIterate OptionType.call 100 1 1 0 0
      (bsmPrice OptionType.call 100 1 1 0 0 (1 / 20)) 50 - 1 / 20| := by
  rw [nrIterate_stuck 50]
  unfold SIGMA_INIT
  rw [show (1 / 5 : ℝ) - 1 / 20 = 3 / 20 from by norm_num,
    abs_of_pos (by norm_num)]
  norm_num

/-- Amended claim C5: the true volatility is a stable exact fixed point of
the solver: once any Newton-Raphson iterate equals sigma_true (whose price
residual is zero, within tolerance), every later iterate still equals
sigma_true. The universal round trip from the fixed initial guess 0.20
fails for quotes whose price is insensitive to sigma. -/
theorem claim_C5_amended (ty : OptionType) (S K T r q σt : ℝ) (n : ℕ)
    (h : nrIterate ty S K T r q (bsmPrice ty S K T r q σt) n = σt) :
    ∀ m, n ≤ m → nrIterate ty S K T r q (bsmPrice ty S K T r q σt) m = σt := by
  intro m hm
  induction m with
  | zero =>
      have h0 : n = 0 := Nat.le_zero.mp hm
      rw [← h0]
      exact h
  | succ m ih =>
      by_cases hnm : n ≤ m
      · have hiter := ih hnm
        have hstep : nrIterate ty S K T r q (bsmPrice ty S K T r q σt) (m + 1) =
            nrStep ty S K T r q (bsmPrice ty S K T r q σt)
              (nrIterate ty S K T r q (bsmPrice ty S K T r q σt) m) := rfl
        rw [hstep, hiter]
        unfold nrStep
        rw [if_pos]
        rw [sub_self, abs_zero]
        unfold PRICE_TOLERANCE
        norm_num
      · have hn1 : n = m + 1 := by omega
        rw [← hn1]
        exact h

/-- Witness for the amended claim C5: with sigma_true equal to the initial
guess 0.20, iterate 0 already equals sigma_true and every later iterate
stays there. -/
theorem claim_C5_amended_witness :
    (nrIterate OptionType.call 100 1 1 0 0
        (bsmPrice OptionType.call 100 1 1 0 0 SIGMA_INIT) 0 = SIGMA_INIT) ∧
      ∀ m, 0 ≤ m → nrIterate OptionType.call 100 1 1 0 0
        (bsmPrice OptionType.call 100 1 1 0 0 SIGMA_INIT) m = SIGMA_INIT :=
  ⟨rfl, claim_C5_amended OptionType.call 100 1 1 0 0 SIGMA_INIT 0 rfl⟩

end StockDB
